import Mathlib

/-!
# Verification of the QA Portal manifest generator

A shallow embedding of `src/review/generate-manifest.py` (narrative extractor,
directory scanner, manifest assembler) together with theorems checking the
design document against it.

Modelling conventions:
* Parsed JSON/YAML documents are values of the inductive type `JVal`
  (Python `str` / `int` / `bool` / `None` / `list` / `dict`).  JSON floats are
  not modelled (none of the checked properties involves them).  Dictionaries
  are association lists in insertion order; keys are unique in any dictionary
  produced by `json.load` / `yaml.safe_load`, which is reflected as a `Nodup`
  hypothesis where it matters.
* Python exceptions are modelled explicitly: operations that can raise a
  `TypeError` / `AttributeError` return `Except Unit _`, and each extraction
  rule returns the items appended so far paired with a flag telling whether
  the rule raised.  The `try/except` wrapper of `extract_narrative_items`
  returns the accumulated items in either case.
* Filesystem and external libraries (`Path.glob`, `json.load`,
  `yaml.safe_load`, `stat`, hashing, PIL) are an oracle structure `FS`;
  `pathlib` name/stem/suffix accessors are transcribed as pure string
  functions.
-/

/-! ## Python value model -/

mutual

inductive JVal : Type where
  | str (s : String)
  | num (n : Int)
  | bool (b : Bool)
  | null
  | arr (xs : JArr)
  | obj (kvs : JObj)

inductive JArr : Type where
  | nil
  | cons (hd : JVal) (tl : JArr)

inductive JObj : Type where
  | nil
  | cons (k : String) (v : JVal) (tl : JObj)

end

deriving instance DecidableEq for JVal

def JArr.toList : JArr → List JVal
  | .nil => []
  | .cons x tl => x :: JArr.toList tl

def JObj.toList : JObj → List (String × JVal)
  | .nil => []
  | .cons k v tl => (k, v) :: JObj.toList tl

def JArr.ofList : List JVal → JArr
  | [] => .nil
  | x :: xs => .cons x (JArr.ofList xs)

def JObj.ofList : List (String × JVal) → JObj
  | [] => .nil
  | (k, v) :: kvs => .cons k v (JObj.ofList kvs)

/-- Convenience constructor for list literals. -/
def jarr (xs : List JVal) : JVal := .arr (JArr.ofList xs)

/-- Convenience constructor for dict literals. -/
def jobj (kvs : List (String × JVal)) : JVal := .obj (JObj.ofList kvs)

/-- `d.get(k)` on a dict with default `dflt`, over the association list. -/
def objGetD (kvs : List (String × JVal)) (k : String) (dflt : JVal) : JVal :=
  match kvs.find? (fun kv => kv.1 == k) with
  | some kv => kv.2
  | none => dflt

/-- `k in d` restricted to dict keys. -/
def hasKey (kvs : List (String × JVal)) (k : String) : Bool :=
  kvs.any (fun kv => kv.1 == k)

/-- Python truthiness of a value (`if v:`). -/
def pyTruthy : JVal → Bool
  | .str s => s ≠ ""
  | .num n => n ≠ 0
  | .bool b => b
  | .null => false
  | .arr xs => match xs with | .nil => false | _ => true
  | .obj kvs => match kvs with | .nil => false | _ => true

/-- `k.isPrefixOf l`: substring search helper (no core `List.isInfixOf` here). -/
def subListAt (k : List Char) : List Char → Bool
  | [] => k.isEmpty
  | c :: cs => k.isPrefixOf (c :: cs) || subListAt k cs

/-- Python `key in v`.  On a dict it tests keys, on a list it tests membership
(the key is a string, so only string elements can compare equal), on a string
it is a substring test; on `int` / `bool` / `None` it raises `TypeError`. -/
def pyContains (k : String) : JVal → Except Unit Bool
  | .obj kvs => .ok (hasKey kvs.toList k)
  | .arr xs => .ok (xs.toList.any (fun v => match v with | .str s => s == k | _ => false))
  | .str s => .ok (subListAt k.data s.data)
  | _ => .error ()

/-- Short-circuiting `k1 in v or k2 in v or ...`. -/
def pyContainsAny (ks : List String) (v : JVal) : Except Unit Bool :=
  match ks with
  | [] => .ok false
  | k :: rest =>
    match pyContains k v with
    | .error e => .error e
    | .ok true => .ok true
    | .ok false => pyContainsAny rest v

/-- Python iteration (`for x in v`): a list yields its elements, a dict its
keys, a string its characters; `int` / `bool` / `None` raise `TypeError`. -/
def pyIter : JVal → Option (List JVal)
  | .arr xs => some xs.toList
  | .obj kvs => some (kvs.toList.map (fun kv => .str kv.1))
  | .str s => some (s.data.map (fun c => .str (String.singleton c)))
  | _ => none

mutual

/-- Python `repr` of a value (string escapes are not modelled; no checked
document contains a quote or backslash). -/
def pyRepr : JVal → String
  | .str s => "\x27" ++ s ++ "\x27"
  | .num n => toString n
  | .bool b => if b then "True" else "False"
  | .null => "None"
  | .arr xs => "[" ++ pyReprArr xs ++ "]"
  | .obj kvs => "\x7b" ++ pyReprObj kvs ++ "\x7d"

def pyReprArr : JArr → String
  | .nil => ""
  | .cons x .nil => pyRepr x
  | .cons x tl => pyRepr x ++ ", " ++ pyReprArr tl

def pyReprObj : JObj → String
  | .nil => ""
  | .cons k v .nil => "\x27" ++ k ++ "\x27: " ++ pyRepr v
  | .cons k v tl => "\x27" ++ k ++ "\x27: " ++ pyRepr v ++ ", " ++ pyReprObj tl

end

/-- Python `str` of a value, as used by f-string interpolation. -/
def pyStrOf : JVal → String
  | .str s => s
  | .num n => toString n
  | .bool b => if b then "True" else "False"
  | .null => "None"
  | .arr xs => "[" ++ pyReprArr xs ++ "]"
  | .obj kvs => "\x7b" ++ pyReprObj kvs ++ "\x7d"

/-- Python `str.title()` (ASCII approximation: the documents under review are
ASCII). -/
def pyTitleAux : List Char → Bool → List Char
  | [], _ => []
  | c :: cs, prevAlpha =>
    (if prevAlpha then c.toLower else c.toUpper) :: pyTitleAux cs c.isAlpha

def pyTitle (s : String) : String := ⟨pyTitleAux s.data false⟩

/-! ## Reviewable items (`extract_narrative_items`, lines 182-343) -/

/-- One extracted reviewable item: the dict appended to `items`.  Fields that
a given item type does not set are `none`. -/
structure Item where
  type : String
  text : JVal
  context : JVal
  id : String
  hintLevel : Option Nat := none
  flavorCategory : Option String := none
  week : Option JVal := none
  speaker : Option JVal := none

deriving instance DecidableEq for Item

/-- Hint items of one JSON encounter (lines 210-217), `i` is the 1-based
`enumerate` counter. -/
def hintItemsJ (etitle : String) (eid : String) : Nat → List JVal → List Item
  | _, [] => []
  | i, h :: hs =>
    { type := "hint", text := h,
      context := .str (etitle ++ " - Hint " ++ toString i),
      id := eid ++ "_hint_" ++ toString i,
      hintLevel := some i } :: hintItemsJ etitle eid (i + 1) hs

/-- One encounter of a JSON chapter (lines 201-217).  A non-dict encounter
raises at `encounter.get`; a non-iterable `hints` value raises at the hint
loop, keeping the intro item. -/
def encounterItemsJ (chTitle : String) (e : JVal) : List Item × Bool :=
  match e with
  | .obj o =>
    let evs := o.toList
    let intro :=
      if pyTruthy (objGetD evs "intro_text" .null) then
        [{ type := "encounter_intro",
           text := objGetD evs "intro_text" (.str ""),
           context := .str (chTitle ++ " > " ++ pyStrOf (objGetD evs "title" (.str "Untitled"))),
           id := "encounter_" ++ pyStrOf (objGetD evs "id" (.str "unknown")) ++ "_intro" }]
      else []
    match pyIter (objGetD evs "hints" (jarr [])) with
    | some hs =>
      (intro ++ hintItemsJ (pyStrOf (objGetD evs "title" (.str "Untitled")))
        ("encounter_" ++ pyStrOf (objGetD evs "id" (.str "unknown"))) 1 hs, false)
    | none => (intro, true)
  | _ => ([], true)

def encounterLoopJ (chTitle : String) : List JVal → List Item × Bool
  | [] => ([], false)
  | e :: es =>
    match encounterItemsJ chTitle e with
    | (its, true) => (its, true)
    | (its, false) =>
      match encounterLoopJ chTitle es with
      | (more, b) => (its ++ more, b)

/-- One chapter of a `chapters` document (lines 193-217). -/
def chapterItems (ch : JVal) : List Item × Bool :=
  match ch with
  | .obj o =>
    let cvs := o.toList
    let intro :=
      if pyTruthy (objGetD cvs "intro_text" .null) then
        [{ type := "chapter_intro",
           text := objGetD cvs "intro_text" (.str ""),
           context := .str ("Chapter " ++ pyStrOf (objGetD cvs "number" (.str "?")) ++ ": "
             ++ pyStrOf (objGetD cvs "title" (.str "Untitled"))),
           id := "chapter_" ++ pyStrOf (objGetD cvs "number" (.num 0)) ++ "_intro" }]
      else []
    match pyIter (objGetD cvs "encounters" (jarr [])) with
    | some es =>
      match encounterLoopJ (pyStrOf (objGetD cvs "title" (.str ""))) es with
      | (more, b) => (intro ++ more, b)
    | none => (intro, true)
  | _ => ([], true)

def chaptersLoop : List JVal → List Item × Bool
  | [] => ([], false)
  | ch :: cs =>
    match chapterItems ch with
    | (its, true) => (its, true)
    | (its, false) =>
      match chaptersLoop cs with
      | (more, b) => (its ++ more, b)

/-- The `chapters` rule (lines 192-217).  `data.get` raises unless the
document is a dict. -/
def chaptersRule (d : JVal) : List Item × Bool :=
  match d with
  | .obj o =>
    match pyIter (objGetD o.toList "chapters" (jarr [])) with
    | some cs => chaptersLoop cs
    | none => ([], true)
  | _ => ([], true)

/-- Flavor items of one list-valued category (lines 222-231). -/
def flavorListItems (cat : String) : Nat → List JVal → List Item
  | _, [] => []
  | i, e :: es =>
    { type := "flavor",
      text := match e with | .obj o => objGetD o.toList "text" e | _ => e,
      context := .str (pyTitle cat ++ " #" ++ toString (i + 1)),
      id := "flavor_" ++ cat ++ "_" ++ toString (i + 1),
      flavorCategory := some cat } :: flavorListItems cat (i + 1) es

/-- Flavor items of one dict-valued category (lines 232-240). -/
def flavorObjItems (cat : String) : List (String × JVal) → List Item
  | [] => []
  | (k, v) :: rest =>
    { type := "flavor",
      text := match v with | .str _ => v | _ => .str (pyStrOf v),
      context := .str (pyTitle cat ++ " - " ++ k),
      id := "flavor_" ++ cat ++ "_" ++ k,
      flavorCategory := some cat } :: flavorObjItems cat rest

/-- The flavor-collection rule (lines 220-240): categories whose value is
neither a list nor a dict yield nothing. -/
def flavorRule (d : JVal) : List Item × Bool :=
  match d with
  | .obj o =>
    (o.toList.foldl (fun acc kv =>
      acc ++ match kv.2 with
        | .arr xs => flavorListItems kv.1 0 xs.toList
        | .obj evs => flavorObjItems kv.1 evs.toList
        | _ => []) [], false)
  | _ => ([], true)

/-- One entry of a `themes`/`weeks` sequence (lines 245-261): `i` is the
0-based `enumerate` index; non-dict non-string entries yield nothing. -/
def themeStep (i : Nat) (t : JVal) : Option Item :=
  match t with
  | .obj o =>
    let tvs := o.toList
    some
      { type := "weekly_theme",
        text := objGetD tvs "text" (objGetD tvs "description" (.str "")),
        context := .str ("Week " ++ pyStrOf (objGetD tvs "week" (.num (Int.ofNat (i + 1)))) ++ ": "
          ++ pyStrOf (objGetD tvs "title" (.str ""))),
        id := "week_" ++ pyStrOf (objGetD tvs "week" (.num (Int.ofNat (i + 1)))),
        week := some (objGetD tvs "week" (.num (Int.ofNat (i + 1)))) }
  | .str _ =>
    some
      { type := "weekly_theme", text := t,
        context := .str ("Week " ++ toString (i + 1)),
        id := "week_" ++ toString (i + 1),
        week := some (.num (Int.ofNat (i + 1))) }
  | _ => none

/-- The `themes`/`weeks` rule (lines 243-261). -/
def themesRule (d : JVal) : List Item × Bool :=
  match d with
  | .obj o =>
    match pyIter (objGetD o.toList "themes" (objGetD o.toList "weeks" (jarr []))) with
    | some ts => (ts.enum.filterMap (fun p => themeStep p.1 p.2), false)
    | none => ([], true)
  | _ => ([], true)

/-- One entry of a JSON `dialogues`/`lines` sequence (lines 266-274):
non-dict entries yield nothing. -/
def dialogueStepJ (i : Nat) (t : JVal) : Option Item :=
  match t with
  | .obj o =>
    let dvs := o.toList
    some
      { type := "dialogue",
        text := objGetD dvs "text" (objGetD dvs "line" (.str "")),
        context := objGetD dvs "speaker" (objGetD dvs "character" (.str "Unknown")),
        id := "dialogue_" ++ pyStrOf (objGetD dvs "id" (.num (Int.ofNat i))),
        speaker := some (objGetD dvs "speaker" (objGetD dvs "character" (.str ""))) }
  | _ => none

/-- The generic dialogue rule for JSON (lines 264-274). -/
def dialogueRuleJ (d : JVal) : List Item × Bool :=
  match d with
  | .obj o =>
    match pyIter (objGetD o.toList "dialogues" (objGetD o.toList "lines" (jarr []))) with
    | some ds => (ds.enum.filterMap (fun p => dialogueStepJ p.1 p.2), false)
    | none => ([], true)
  | _ => ([], true)

/-- The JSON branch of `extract_narrative_items` (lines 192-274): the `elif`
cascade, first matching shape wins; a `TypeError` raised by the membership
tests aborts with no items. -/
def jsonExtract (d : JVal) : List Item × Bool :=
  match pyContains "chapters" d with
  | .error _ => ([], true)
  | .ok true => chaptersRule d
  | .ok false =>
  match pyContainsAny ["weekly", "monthly", "victory"] d with
  | .error _ => ([], true)
  | .ok true => flavorRule d
  | .ok false =>
  match pyContainsAny ["themes", "weeks"] d with
  | .error _ => ([], true)
  | .ok true => themesRule d
  | .ok false =>
  match pyContainsAny ["dialogues", "lines"] d with
  | .error _ => ([], true)
  | .ok true => dialogueRuleJ d
  | .ok false => ([], false)

/-- The intro / success / failure items of a YAML encounter (lines 284-305). -/
def encounterPre (stem : String) (kvs : List (String × JVal)) : List Item :=
  (if pyTruthy (objGetD kvs "intro_text" .null) then
    [{ type := "encounter_intro",
       text := objGetD kvs "intro_text" (.str ""),
       context := objGetD kvs "title" (.str stem),
       id := "encounter_" ++ pyStrOf (objGetD kvs "id" (.str stem)) ++ "_intro" }]
  else [])
  ++ (if pyTruthy (objGetD kvs "success_text" .null) then
    [{ type := "encounter_success",
       text := objGetD kvs "success_text" (.str ""),
       context := .str (pyStrOf (objGetD kvs "title" (.str stem)) ++ " - Success"),
       id := "encounter_" ++ pyStrOf (objGetD kvs "id" (.str stem)) ++ "_success" }]
  else [])
  ++ (if pyTruthy (objGetD kvs "failure_text" .null) then
    [{ type := "encounter_failure",
       text := objGetD kvs "failure_text" (.str ""),
       context := .str (pyStrOf (objGetD kvs "title" (.str stem)) ++ " - Failure"),
       id := "encounter_" ++ pyStrOf (objGetD kvs "id" (.str stem)) ++ "_failure" }]
  else [])

/-- Hint items of a YAML encounter (lines 307-315), 1-based counter. -/
def hintItemsY (stem : String) (kvs : List (String × JVal)) : Nat → List JVal → List Item
  | _, [] => []
  | i, h :: hs =>
    { type := "hint",
      text := match h with | .obj o => objGetD o.toList "text" h | _ => h,
      context := .str (pyStrOf (objGetD kvs "title" (.str stem)) ++ " - Hint " ++ toString i),
      id := "encounter_" ++ pyStrOf (objGetD kvs "id" (.str stem)) ++ "_hint_" ++ toString i,
      hintLevel := some i } :: hintItemsY stem kvs (i + 1) hs

/-- Dialogue items of a YAML encounter (lines 317-325): `cnt` is `len(items)`
at the time each entry is examined; it grows only when an item is appended. -/
def yDialogueLoop (docId : String) (titleStr : String) : Nat → List JVal → List Item
  | _, [] => []
  | cnt, d :: ds =>
    match d with
    | .obj o =>
      let dvs := o.toList
      { type := "dialogue",
        text := objGetD dvs "text" (objGetD dvs "line" (.str "")),
        context := .str (titleStr ++ " - " ++ pyStrOf (objGetD dvs "speaker" (.str "Unknown"))),
        id := "dialogue_" ++ docId ++ "_" ++ pyStrOf (objGetD dvs "id" (.num (Int.ofNat cnt))),
        speaker := some (objGetD dvs "speaker" (objGetD dvs "character" (.str ""))) }
        :: yDialogueLoop docId titleStr (cnt + 1) ds
    | _ => yDialogueLoop docId titleStr cnt ds

/-- The YAML encounter rule (lines 284-325). -/
def encounterRuleY (stem : String) (d : JVal) : List Item × Bool :=
  match d with
  | .obj o =>
    let kvs := o.toList
    let pre := encounterPre stem kvs
    match pyIter (objGetD kvs "hints" (jarr [])) with
    | none => (pre, true)
    | some hs =>
      let withHints := pre ++ hintItemsY stem kvs 1 hs
      match pyIter (objGetD kvs "dialogue" (objGetD kvs "dialogues" (jarr []))) with
      | none => (withHints, true)
      | some ds =>
        (withHints ++ yDialogueLoop (pyStrOf (objGetD kvs "id" (.str stem)))
          (pyStrOf (objGetD kvs "title" (.str stem))) withHints.length ds, false)
  | _ => ([], true)

/-- Line items of a standalone YAML dialogue file (lines 330-338). -/
def yLineLoop (stem : String) (sp : JVal) : Nat → List JVal → List Item
  | _, [] => []
  | i, l :: ls =>
    { type := "dialogue",
      text := match l with | .obj o => objGetD o.toList "text" l | _ => l,
      context := .str (pyStrOf sp ++ " - Line " ++ toString (i + 1)),
      id := "dialogue_" ++ stem ++ "_" ++ toString i,
      speaker := some sp } :: yLineLoop stem sp (i + 1) ls

/-- The standalone YAML dialogue rule (lines 328-338). -/
def dialogueRuleY (stem : String) (d : JVal) : List Item × Bool :=
  match d with
  | .obj o =>
    let kvs := o.toList
    let sp := objGetD kvs "npc" (objGetD kvs "character" (objGetD kvs "speaker" (.str stem)))
    match pyIter (objGetD kvs "lines" (objGetD kvs "dialogue" (jarr []))) with
    | none => ([], true)
    | some ls => (yLineLoop stem sp 0 ls, false)
  | _ => ([], true)

/-- The YAML branch of `extract_narrative_items` (lines 284-338). -/
def yamlExtract (stem : String) (d : JVal) : List Item × Bool :=
  match pyContainsAny ["intro_text", "title"] d with
  | .error _ => ([], true)
  | .ok true => encounterRuleY stem d
  | .ok false =>
  match pyContainsAny ["npc", "character", "speaker"] d with
  | .error _ => ([], true)
  | .ok true => dialogueRuleY stem d
  | .ok false => ([], false)

/-- A file as seen by the extractor: its path-derived names, the outcome of
parsing it (`none` models a parse or read exception), and its stat metadata
(which the extractor never reads; it is carried to state metadata
independence). -/
structure FileRec where
  path : String
  stem : String
  suffix : String
  parsedJson : Option JVal
  parsedYaml : Option JVal
  size : Nat
  modified : String
  hashv : String

/-- `extract_narrative_items` (lines 182-343): the `try/except` wrapper
returns whatever items were appended before any exception. -/
def extract_narrative_items (f : FileRec) : List Item :=
  if f.suffix == ".json" then
    match f.parsedJson with
    | none => []
    | some d => (jsonExtract d).1
  else if f.suffix == ".yaml" || f.suffix == ".yml" then
    match f.parsedYaml with
    | none => []
    | some d =>
      match d with
      | .null => []
      | _ => (yamlExtract f.stem d).1
  else []

/-! ## pathlib accessors and path ordering -/

/-- Split a character list on a separator character. -/
def splitOnChar (sep : Char) : List Char → List (List Char)
  | [] => [[]]
  | c :: cs =>
    let r := splitOnChar sep cs
    if c = sep then [] :: r
    else
      match r with
      | [] => [[c]]
      | g :: gs => (c :: g) :: gs

/-- `Path.name`: the final path component. -/
def pathName (p : String) : String := ⟨(splitOnChar '/' p.data).getLastD []⟩

/-- Index of the last dot of a name (`name.rfind` in `PurePath.suffix`). -/
def lastDotIdx (cs : List Char) : Option Nat :=
  (cs.enum.filterMap (fun ci => if ci.2 = '.' then some ci.1 else none)).getLast?

/-- `Path.suffix`: the last dot-suffix, empty when the name has no inner dot. -/
def pathSuffix (p : String) : String :=
  let n := pathName p
  match lastDotIdx n.data with
  | some i => if 0 < i ∧ i < n.length - 1 then ⟨n.data.drop i⟩ else ""
  | none => ""

/-- `Path.stem`: the name without its suffix. -/
def pathStem (p : String) : String :=
  let n := pathName p
  match lastDotIdx n.data with
  | some i => if 0 < i ∧ i < n.length - 1 then ⟨n.data.take i⟩ else n
  | none => n

/-- `Path.relative_to`: the files handed to it by the assembler always live
under the base, so stripping the prefix suffices. -/
def relTo (base p : String) : String :=
  if (base ++ "/").data.isPrefixOf p.data then ⟨p.data.drop (base.length + 1)⟩ else p

/-- Python string comparison: lexicographic on code points. -/
def charListLe : List Char → List Char → Bool
  | [], _ => true
  | _ :: _, [] => false
  | a :: as, b :: bs => if a < b then true else if b < a then false else charListLe as bs

/-- Path ordering used by `sorted` (modelled as plain string order). -/
def pathLe (a b : String) : Prop := charListLe a.data b.data = true

instance : DecidableRel pathLe := fun a b => by unfold pathLe; infer_instance

/-! ## Directory scanner (`scan_directory`, lines 374-389) -/

/-- The filesystem / external-library oracle: directory existence, `glob`
results, parsing outcomes (`none` = the parse raised; an empty YAML file
parses to `some .null`), and per-file stat/hash/PIL data. -/
structure FS where
  pathExists : String → Bool
  glob : String → String → List String
  parseJson : String → Option JVal
  parseYaml : String → Option JVal
  size : String → Nat
  modified : String → String
  hashv : String → String
  dimensions : String → Option String
  now : String

def joinPath (a b : String) : String := a ++ "/" ++ b

/-- `scan_directory`: empty when the directory is missing, otherwise the
sorted deduplicated union of direct and recursive glob matches. -/
def scan_directory (fs : FS) (basePath : String) (categoryPath : String)
    (patterns : List String) : List String :=
  let fullPath := joinPath basePath categoryPath
  if fs.pathExists fullPath then
    let files := patterns.foldl
      (fun acc pat => acc ++ fs.glob fullPath pat ++ fs.glob fullPath ("**/" ++ pat)) []
    files.dedup.insertionSort pathLe
  else []

/-! ## Catalog configuration (`PROJECTS`, lines 23-179) -/

structure Category where
  path : String
  reviewType : String
  patterns : List String
  extractContent : Bool := false

structure Project where
  name : String
  basePath : String
  categories : List (String × Category)

def PROJECTS : List (String × Project) := [
  ("spellengine",
   { name := "SpellEngine / Dread Citadel",
     basePath := "/Users/petermckernan/Projects/SpellEngine",
     categories := [
       ("dread_citadel_art",
        { path := "assets/images/dread_citadel", reviewType := "art",
          patterns := ["*.png", "*.jpg"] }),
       ("dread_citadel_crunched",
        { path := "assets/images/dread_citadel_crunched", reviewType := "art",
          patterns := ["*.png"] }),
       ("music",
        { path := "assets/audio/music", reviewType := "audio",
          patterns := ["*.ogg", "*.mp3", "*.wav"] }),
       ("sfx",
        { path := "assets/audio/sfx", reviewType := "audio",
          patterns := ["*.ogg", "*.mp3", "*.wav"] }),
       ("campaign_narrative",
        { path := "content/adventures/dread_citadel", reviewType := "narrative",
          patterns := ["campaign.json", "campaign.yaml"], extractContent := true }),
       ("encounters",
        { path := "content/adventures/dread_citadel/encounters", reviewType := "narrative",
          patterns := ["*.yaml", "*.yml"], extractContent := true }),
       ("dialogues",
        { path := "content/dialogues", reviewType := "narrative",
          patterns := ["*.yaml", "*.json"], extractContent := true }),
       ("lore",
        { path := "cipher-circle/stories", reviewType := "lore", patterns := ["*.md"] }),
       ("chronicles",
        { path := "cipher-circle/chronicles", reviewType := "lore", patterns := ["*.md"] }),
       ("voice_guides",
        { path := "cipher-circle", reviewType := "vocal",
          patterns := ["VOICE_GUIDE.md", "*voice*.md"] })] }),
  ("hashchampions",
   { name := "HashChampions",
     basePath := "/Users/petermckernan/Projects/HashChampions",
     categories := [
       ("hero",
        { path := "assets/images/hero", reviewType := "art", patterns := ["*.png", "*.jpg"] }),
       ("leaderboard",
        { path := "assets/images/leaderboard", reviewType := "art", patterns := ["*.png"] }),
       ("ranks",
        { path := "assets/images/icons/ranks", reviewType := "art", patterns := ["*.png"] }),
       ("achievements",
        { path := "assets/images/icons/achievements", reviewType := "art",
          patterns := ["*.png"] }),
       ("profile",
        { path := "assets/images/profile", reviewType := "art", patterns := ["*.png"] }),
       ("characters",
        { path := "assets/images/characters", reviewType := "art", patterns := ["*.png"] }),
       ("equipment",
        { path := "assets/images/icons/equipment", reviewType := "art", patterns := ["*.png"] }),
       ("badges",
        { path := "assets/images/icons/badges", reviewType := "art", patterns := ["*.png"] }),
       ("scenes",
        { path := "assets/images/scenes", reviewType := "art", patterns := ["*.png"] }),
       ("sprites",
        { path := "assets/images/sprites", reviewType := "art", patterns := ["*.png"] }),
       ("ui",
        { path := "assets/images/ui", reviewType := "art", patterns := ["*.png"] }),
       ("special",
        { path := "assets/images/special", reviewType := "art", patterns := ["*.png"] }),
       ("logos",
        { path := "assets/images/logos", reviewType := "art", patterns := ["*.png", "*.svg"] }),
       ("flavor_text",
        { path := "content/narrative", reviewType := "narrative",
          patterns := ["flavor_text.json"], extractContent := true }),
       ("weekly_themes",
        { path := "content/narrative", reviewType := "narrative",
          patterns := ["weekly_themes.json"], extractContent := true }),
       ("review_music",
        { path := "assets/review/music", reviewType := "audio", patterns := ["*.mp3"] })] })]

/-! ## Metadata probe and manifest assembler (lines 346-492) -/

structure FileInfo where
  size : Nat
  modified : String
  hashv : String
  dimensions : Option String

/-- `get_file_info` (lines 346-371): stat, hash and dimension probing are
oracle reads. -/
def get_file_info (fs : FS) (p : String) : FileInfo :=
  { size := fs.size p, modified := fs.modified p, hashv := fs.hashv p,
    dimensions := fs.dimensions p }

/-- One entry of a category's `assets` list: either an extracted item entry
(lines 444-457), an extraction fallback (460-467), or a plain file entry
(469-475); keys the branch does not write are `none`. -/
structure AssetEntry where
  name : String
  path : String
  absolutePath : String
  reviewType : String
  contentType : Option String
  text : Option JVal
  context : Option JVal
  speaker : Option JVal
  hintLevel : Option Nat
  flavorCategory : Option String
  week : Option JVal
  info : FileInfo

/-- The `FileRec` the extractor sees for a discovered path. -/
def mkFileRec (fs : FS) (p : String) : FileRec :=
  { path := p, stem := pathStem p, suffix := pathSuffix p,
    parsedJson := fs.parseJson p, parsedYaml := fs.parseYaml p,
    size := fs.size p, modified := fs.modified p, hashv := fs.hashv p }

/-- Lines 444-457.  Every item built by the extractor carries an `id` key, so
the `item.get("id", ...)` fallback of line 445 never fires and `name` is the
item's id. -/
def itemAsset (rel absP rt : String) (info : FileInfo) (it : Item) : AssetEntry :=
  { name := it.id, path := rel, absolutePath := absP, reviewType := rt,
    contentType := some it.type, text := some it.text, context := some it.context,
    speaker := some (it.speaker.getD (.str "")), hintLevel := it.hintLevel,
    flavorCategory := it.flavorCategory, week := it.week, info := info }

def fileAsset (ct : Option String) (rel absP rt : String) (info : FileInfo) : AssetEntry :=
  { name := pathName absP, path := rel, absolutePath := absP, reviewType := rt,
    contentType := ct, text := none, context := none, speaker := none,
    hintLevel := none, flavorCategory := none, week := none, info := info }

/-- Lines 435-475: the asset entries contributed by one discovered file. -/
def perFileAssets (fs : FS) (basePath : String) (cat : Category) (p : String) :
    List AssetEntry :=
  let rel := relTo basePath p
  let info := get_file_info fs p
  if cat.extractContent
      && (pathSuffix p == ".json" || pathSuffix p == ".yaml" || pathSuffix p == ".yml") then
    let its := extract_narrative_items (mkFileRec fs p)
    if its.isEmpty then [fileAsset (some "file") rel p cat.reviewType info]
    else its.map (itemAsset rel p cat.reviewType info)
  else [fileAsset none rel p cat.reviewType info]

structure CategoryOut where
  path : String
  reviewType : String
  extractContent : Bool
  assets : List AssetEntry
  count : Nat

structure ProjectOut where
  name : String
  basePath : String
  categories : List (String × CategoryOut)
  totalAssets : Nat

structure Manifest where
  generated : String
  generator : String
  version : String
  projects : List (String × ProjectOut)
  totalAssets : Nat

/-- Lines 426-486: the category loop of one project, returning the emitted
categories and the sum the loop adds to both the project total and the
running grand total. -/
def catLoop (fs : FS) (basePath : String) : List (String × Category) →
    List (String × CategoryOut) × Nat
  | [] => ([], 0)
  | (ck, c) :: rest =>
    let files := scan_directory fs basePath c.path c.patterns
    if files.isEmpty then catLoop fs basePath rest
    else
      let assets := (files.map (perFileAssets fs basePath c)).flatten
      if assets.isEmpty then catLoop fs basePath rest
      else
        let r := catLoop fs basePath rest
        ((ck, { path := c.path, reviewType := c.reviewType,
                extractContent := c.extractContent,
                assets := assets, count := assets.length }) :: r.1,
         assets.length + r.2)

def buildProject (fs : FS) (p : Project) : ProjectOut :=
  let r := catLoop fs p.basePath p.categories
  { name := p.name, basePath := p.basePath, categories := r.1, totalAssets := r.2 }

/-- `project_key not in PROJECTS` / `PROJECTS[project_key]`. -/
def lookupProj (cfg : List (String × Project)) (k : String) : Option Project :=
  (cfg.find? (fun kv => kv.1 == k)).map (fun kv => kv.2)

/-- `manifest["projects"][project_key] = project_data`: dict assignment
replaces an existing binding in place, else appends. -/
def dictInsert (m : List (String × ProjectOut)) (k : String) (v : ProjectOut) :
    List (String × ProjectOut) :=
  if m.any (fun kv => kv.1 == k) then
    m.map (fun kv => if kv.1 == k then (k, v) else kv)
  else m ++ [(k, v)]

/-- Lines 407-488: the project loop, threading the `projects` dict and the
`total_assets` running sum. -/
def gmLoop (cfg : List (String × Project)) (fs : FS) :
    List String → List (String × ProjectOut) → Nat → List (String × ProjectOut) × Nat
  | [], acc, tot => (acc, tot)
  | k :: ks, acc, tot =>
    match lookupProj cfg k with
    | none => gmLoop cfg fs ks acc tot
    | some p =>
      if fs.pathExists p.basePath then
        let pd := buildProject fs p
        gmLoop cfg fs ks (dictInsert acc k pd) (tot + pd.totalAssets)
      else gmLoop cfg fs ks acc tot

/-- `generate_manifest` (lines 392-492), with the module-level `PROJECTS`
dict passed explicitly as `cfg`. -/
def generate_manifest (cfg : List (String × Project)) (fs : FS)
    (projectsArg : Option (List String)) : Manifest :=
  let keys := projectsArg.getD (cfg.map (fun kv => kv.1))
  let r := gmLoop cfg fs keys [] 0
  { generated := fs.now, generator := "generate-manifest.py", version := "1.0",
    projects := r.1, totalAssets := r.2 }

/-! ## Support lemmas -/

theorem str_append_cancel (s : String) {a b : String} (h : s ++ a = s ++ b) : a = b := by
  apply String.ext
  have hd := congrArg String.data h
  rw [String.data_append, String.data_append] at hd
  exact List.append_cancel_left hd

theorem toDigitsCore_acc (fuel : Nat) : ∀ (n : Nat) (ds : List Char),
    Nat.toDigitsCore 10 fuel n ds = Nat.toDigitsCore 10 fuel n [] ++ ds := by
  induction fuel with
  | zero => intro n ds; simp [Nat.toDigitsCore]
  | succ fuel ih =>
    intro n ds
    simp only [Nat.toDigitsCore]
    by_cases h : n / 10 = 0
    · simp [h]
    · simp only [h, if_false]
      rw [ih (n / 10) ((n % 10).digitChar :: ds), ih (n / 10) [(n % 10).digitChar]]
      simp

theorem toDigitsCore_eq_digits (fuel : Nat) : ∀ n : Nat, 0 < n → n < fuel →
    Nat.toDigitsCore 10 fuel n [] = ((Nat.digits 10 n).map Nat.digitChar).reverse := by
  induction fuel with
  | zero => intro n _ h; exact absurd h (Nat.not_lt_zero n)
  | succ fuel ih =>
    intro n hn hlt
    have hd : Nat.digits 10 n = n % 10 :: Nat.digits 10 (n / 10) :=
      Nat.digits_def' (by norm_num) hn
    simp only [Nat.toDigitsCore]
    by_cases h : n / 10 = 0
    · simp [h, hd]
    · simp only [h, if_false]
      rw [toDigitsCore_acc]
      rw [ih (n / 10) (Nat.pos_of_ne_zero h)
        (lt_of_lt_of_le (Nat.div_lt_self hn (by norm_num)) (Nat.lt_succ_iff.mp hlt))]
      simp [hd]

theorem natRepr_eq (n : Nat) (hn : n ≠ 0) :
    Nat.repr n = (((Nat.digits 10 n).map Nat.digitChar).reverse).asString := by
  unfold Nat.repr Nat.toDigits
  rw [toDigitsCore_eq_digits (n + 1) n (Nat.pos_of_ne_zero hn) (Nat.lt_succ_self n)]

theorem digitChar_inj {a b : Nat} (ha : a < 10) (hb : b < 10)
    (h : Nat.digitChar a = Nat.digitChar b) : a = b := by
  interval_cases a <;> interval_cases b <;> first | rfl | (exfalso; revert h; decide)

theorem map_digitChar_inj : ∀ l1 l2 : List Nat, (∀ x ∈ l1, x < 10) → (∀ x ∈ l2, x < 10) →
    l1.map Nat.digitChar = l2.map Nat.digitChar → l1 = l2 := by
  intro l1
  induction l1 with
  | nil => intro l2 _ _ h; cases l2 <;> simp_all
  | cons a l1 ih =>
    intro l2 h1 h2 h
    cases l2 with
    | nil => simp_all
    | cons b l2 =>
      simp only [List.map_cons, List.cons.injEq] at h
      have hab : a = b := digitChar_inj (h1 a (by simp)) (h2 b (by simp)) h.1
      have : l1 = l2 := ih l2 (fun x hx => h1 x (by simp [hx])) (fun x hx => h2 x (by simp [hx])) h.2
      simp [hab, this]

theorem natRepr_inj {m n : Nat} (h : Nat.repr m = Nat.repr n) : m = n := by
  by_cases hm : m = 0 <;> by_cases hn : n = 0
  · omega
  · exfalso
    rw [hm, natRepr_eq n hn] at h
    have hdata := congrArg String.data h
    simp only [List.asString] at hdata
    have h0 : Nat.repr 0 = "0" := rfl
    rw [h0] at hdata
    have : (Nat.digits 10 n).map Nat.digitChar = ['0'] := by
      have := congrArg List.reverse hdata
      simpa using this.symm
    have hdig : Nat.digits 10 n = [0] := by
      apply map_digitChar_inj
      · exact fun x hx => Nat.digits_lt_base (by norm_num) hx
      · intro x hx; simp at hx; omega
      · simpa using this
    have hofd := Nat.ofDigits_digits 10 n
    rw [hdig] at hofd
    simp [Nat.ofDigits] at hofd
    exact hn hofd.symm
  · exfalso
    rw [hn, natRepr_eq m hm] at h
    have hdata := congrArg String.data h
    simp only [List.asString] at hdata
    have h0 : Nat.repr 0 = "0" := rfl
    rw [h0] at hdata
    have : (Nat.digits 10 m).map Nat.digitChar = ['0'] := by
      have := congrArg List.reverse hdata
      simpa using this
    have hdig : Nat.digits 10 m = [0] := by
      apply map_digitChar_inj
      · exact fun x hx => Nat.digits_lt_base (by norm_num) hx
      · intro x hx; simp at hx; omega
      · simpa using this
    have hofd := Nat.ofDigits_digits 10 m
    rw [hdig] at hofd
    simp [Nat.ofDigits] at hofd
    exact hm hofd.symm
  · rw [natRepr_eq m hm, natRepr_eq n hn] at h
    have hdata := congrArg String.data h
    simp only [List.asString] at hdata
    have hmap : (Nat.digits 10 m).map Nat.digitChar = (Nat.digits 10 n).map Nat.digitChar :=
      List.reverse_injective hdata
    have hdig : Nat.digits 10 m = Nat.digits 10 n :=
      map_digitChar_inj _ _ (fun x hx => Nat.digits_lt_base (by norm_num) hx)
        (fun x hx => Nat.digits_lt_base (by norm_num) hx) hmap
    exact Nat.digits_inj_iff.mp hdig

theorem charListLe_total : ∀ as bs : List Char,
    charListLe as bs = true ∨ charListLe bs as = true := by
  intro as
  induction as with
  | nil => intro bs; left; rfl
  | cons a as ih =>
    intro bs
    cases bs with
    | nil => right; rfl
    | cons b bs =>
      by_cases h1 : a < b
      · left; simp [charListLe, h1]
      · by_cases h2 : b < a
        · right; simp [charListLe, h2]
        · rcases ih bs with h | h
          · left; simp [charListLe, h1, h2, h]
          · right; simp [charListLe, h1, h2, h]

theorem charListLe_trans : ∀ as bs cs : List Char,
    charListLe as bs = true → charListLe bs cs = true → charListLe as cs = true := by
  intro as
  induction as with
  | nil => intro bs cs _ _; rfl
  | cons a as ih =>
    intro bs cs h1 h2
    cases bs with
    | nil => simp [charListLe] at h1
    | cons b bs =>
      cases cs with
      | nil => simp [charListLe] at h2
      | cons c cs =>
        by_cases hab : a < b
        · by_cases hbc : b < c
          · simp [charListLe, lt_trans hab hbc]
          · by_cases hcb : c < b
            · simp [charListLe, hbc, hcb] at h2
            · have : b = c := le_antisymm (not_lt.mp hcb) (not_lt.mp hbc)
              subst this
              simp [charListLe, hab]
        · by_cases hba : b < a
          · simp [charListLe, hab, hba] at h1
          · have : a = b := le_antisymm (not_lt.mp hba) (not_lt.mp hab)
            subst this
            simp only [charListLe, lt_irrefl, if_false] at h1
            by_cases hbc : a < c
            · simp [charListLe, hbc]
            · by_cases hcb : c < a
              · simp [charListLe, hbc, hcb] at h2
              · have : a = c := le_antisymm (not_lt.mp hcb) (not_lt.mp hbc)
                subst this
                simp only [charListLe, lt_irrefl, if_false] at h2 ⊢
                exact ih bs cs h1 h2

instance : IsTotal String pathLe :=
  ⟨fun a b => by
    rcases charListLe_total a.data b.data with h | h
    · exact Or.inl h
    · exact Or.inr h⟩

instance : IsTrans String pathLe :=
  ⟨fun a b c h1 h2 => charListLe_trans a.data b.data c.data h1 h2⟩

theorem mem_scanFold (A B : String → List String) :
    ∀ (pats : List String) (acc : List String) (x : String),
      x ∈ pats.foldl (fun acc pat => acc ++ A pat ++ B pat) acc
        ↔ x ∈ acc ∨ ∃ p ∈ pats, x ∈ A p ∨ x ∈ B p := by
  intro pats
  induction pats with
  | nil => intro acc x; simp
  | cons p ps ih =>
    intro acc x
    rw [List.foldl_cons, ih]
    simp only [List.mem_append, List.mem_cons]
    aesop

theorem hintItemsJ_type (et eid : String) : ∀ (i : Nat) (hs : List JVal),
    ∀ it ∈ hintItemsJ et eid i hs, it.type = "hint" := by
  intro i hs
  induction hs generalizing i with
  | nil => intro it hit; simp [hintItemsJ] at hit
  | cons h hs ih =>
    intro it hit
    simp only [hintItemsJ, List.mem_cons] at hit
    rcases hit with rfl | hit
    · rfl
    · exact ih (i + 1) it hit

theorem encounterItemsJ_type (ct : String) (e : JVal) :
    ∀ it ∈ (encounterItemsJ ct e).1, it.type = "encounter_intro" ∨ it.type = "hint" := by
  intro it hit
  unfold encounterItemsJ at hit
  rcases e with s | n | b | _ | xs | o <;> simp at hit
  rcases hp : pyIter (objGetD o.toList "hints" (jarr [])) with _ | hs <;>
    rw [hp] at hit <;> simp at hit <;>
    rcases hq : pyTruthy (objGetD o.toList "intro_text" .null) <;>
    rw [hq] at hit <;> simp at hit
  case none.true => left; rw [hit]
  case some.false => right; exact hintItemsJ_type _ _ 1 hs it hit
  case some.true =>
    rcases hit with rfl | hit
    · left; rfl
    · right; exact hintItemsJ_type _ _ 1 hs it hit

theorem encounterLoopJ_type (ct : String) : ∀ (es : List JVal),
    ∀ it ∈ (encounterLoopJ ct es).1, it.type = "encounter_intro" ∨ it.type = "hint" := by
  intro es
  induction es with
  | nil => intro it hit; simp [encounterLoopJ] at hit
  | cons e es ih =>
    intro it hit
    unfold encounterLoopJ at hit
    rcases he : encounterItemsJ ct e with ⟨its, b⟩
    rw [he] at hit
    have hits : ∀ it ∈ its, it.type = "encounter_intro" ∨ it.type = "hint" := by
      intro x hx
      have := encounterItemsJ_type ct e x
      rw [he] at this
      exact this hx
    cases b with
    | true => exact hits it hit
    | false =>
      rcases hr : encounterLoopJ ct es with ⟨more, b2⟩
      rw [hr] at hit
      simp only [List.mem_append] at hit
      rcases hit with hit | hit
      · exact hits it hit
      · have := ih it
        rw [hr] at this
        exact this hit

theorem chapterItems_type (ch : JVal) :
    ∀ it ∈ (chapterItems ch).1,
      it.type = "chapter_intro" ∨ it.type = "encounter_intro" ∨ it.type = "hint" := by
  intro it hit
  unfold chapterItems at hit
  rcases ch with s | n | b | _ | xs | o <;> simp at hit
  rcases hp : pyIter (objGetD o.toList "encounters" (jarr [])) with _ | es <;>
    rw [hp] at hit <;> simp at hit
  case none =>
    rcases hq : pyTruthy (objGetD o.toList "intro_text" .null) <;> rw [hq] at hit <;>
      simp at hit
    left; rw [hit]
  case some =>
    rcases hr : encounterLoopJ (pyStrOf (objGetD o.toList "title" (.str ""))) es with ⟨more, b⟩
    rw [hr] at hit
    simp only at hit
    rcases hq : pyTruthy (objGetD o.toList "intro_text" .null) <;> rw [hq] at hit <;>
      simp at hit
    · right
      have := encounterLoopJ_type (pyStrOf (objGetD o.toList "title" (.str ""))) es it
      rw [hr] at this
      exact this hit
    · rcases hit with rfl | hit
      · left; rfl
      · right
        have := encounterLoopJ_type (pyStrOf (objGetD o.toList "title" (.str ""))) es it
        rw [hr] at this
        exact this hit

theorem chaptersLoop_type : ∀ (cs : List JVal),
    ∀ it ∈ (chaptersLoop cs).1,
      it.type = "chapter_intro" ∨ it.type = "encounter_intro" ∨ it.type = "hint" := by
  intro cs
  induction cs with
  | nil => intro it hit; simp [chaptersLoop] at hit
  | cons c cs ih =>
    intro it hit
    unfold chaptersLoop at hit
    rcases hc : chapterItems c with ⟨its, b⟩
    rw [hc] at hit
    have hits : ∀ x ∈ its, x.type = "chapter_intro" ∨ x.type = "encounter_intro" ∨ x.type = "hint" := by
      intro x hx
      have := chapterItems_type c x
      rw [hc] at this
      exact this hx
    cases b with
    | true => exact hits it hit
    | false =>
      rcases hr : chaptersLoop cs with ⟨more, b2⟩
      rw [hr] at hit
      simp only [List.mem_append] at hit
      rcases hit with hit | hit
      · exact hits it hit
      · have := ih it
        rw [hr] at this
        exact this hit

theorem chaptersRule_type (d : JVal) :
    ∀ it ∈ (chaptersRule d).1,
      it.type = "chapter_intro" ∨ it.type = "encounter_intro" ∨ it.type = "hint" := by
  intro it hit
  unfold chaptersRule at hit
  rcases d with s | n | b | _ | xs | o <;> simp at hit
  rcases hp : pyIter (objGetD o.toList "chapters" (jarr [])) with _ | cs <;>
    rw [hp] at hit <;> simp at hit
  exact chaptersLoop_type cs it hit

theorem catLoop_total_eq_sum (fs : FS) (base : String) : ∀ cats : List (String × Category),
    (catLoop fs base cats).2 = ((catLoop fs base cats).1.map (fun kc => kc.2.count)).sum := by
  intro cats
  induction cats with
  | nil => simp [catLoop]
  | cons hd tl ih =>
    obtain ⟨ck, c⟩ := hd
    simp only [catLoop]
    split
    · exact ih
    · split
      · exact ih
      · simp [ih]

theorem catLoop_keys_sub (fs : FS) (base : String) : ∀ (cats : List (String × Category)) (k : String),
    k ∈ (catLoop fs base cats).1.map (fun kc => kc.1) → k ∈ cats.map (fun kc => kc.1) := by
  intro cats
  induction cats with
  | nil => intro k hk; simp [catLoop] at hk
  | cons hd tl ih =>
    obtain ⟨ck, c⟩ := hd
    intro k hk
    simp only [catLoop] at hk
    by_cases h1 : (scan_directory fs base c.path c.patterns).isEmpty
    · rw [if_pos h1] at hk
      exact List.mem_cons_of_mem _ (ih k hk)
    · rw [if_neg h1] at hk
      by_cases h2 : ((scan_directory fs base c.path c.patterns).map
          (perFileAssets fs base c)).flatten.isEmpty
      · rw [if_pos h2] at hk
        exact List.mem_cons_of_mem _ (ih k hk)
      · rw [if_neg h2] at hk
        simp only [List.map_cons, List.mem_cons] at hk ⊢
        rcases hk with hk | hk
        · exact Or.inl hk
        · exact Or.inr (ih k hk)

theorem catLoop_skips_empty (fs : FS) (base : String) :
    ∀ (cats : List (String × Category)) (ck : String) (c : Category),
      (ck, c) ∈ cats →
      scan_directory fs base c.path c.patterns = [] →
      (cats.map (fun kc => kc.1)).Nodup →
      ck ∉ (catLoop fs base cats).1.map (fun kc => kc.1) := by
  intro cats
  induction cats with
  | nil => intro ck c h; simp at h
  | cons hd tl ih =>
    obtain ⟨ck', c'⟩ := hd
    intro ck c hmem hscan hnd
    simp only [List.map_cons, List.nodup_cons] at hnd
    rcases List.mem_cons.mp hmem with heq | htl
    · rw [Prod.mk.injEq] at heq
      obtain ⟨h1, h2⟩ := heq
      subst h1
      subst h2
      simp only [catLoop, hscan, List.isEmpty_nil, if_true]
      intro hk
      exact hnd.1 (catLoop_keys_sub fs base tl ck hk)
    · have hck : ck ∈ tl.map (fun kc => kc.1) := List.mem_map.mpr ⟨(ck, c), htl, rfl⟩
      simp only [catLoop]
      split
      · exact ih ck c htl hscan hnd.2
      · split
        · exact ih ck c htl hscan hnd.2
        · simp only [List.map_cons, List.mem_cons]
          intro hk
          rcases hk with rfl | hk
          · exact hnd.1 hck
          · exact ih ck c htl hscan hnd.2 hk

theorem buildProject_total_eq_sum (fs : FS) (p : Project) :
    (buildProject fs p).totalAssets
      = ((buildProject fs p).categories.map (fun kc => kc.2.count)).sum := by
  unfold buildProject
  exact catLoop_total_eq_sum fs p.basePath p.categories

theorem dictInsert_mem (m : List (String × ProjectOut)) (k : String) (v : ProjectOut) :
    ∀ kv ∈ dictInsert m k v, kv ∈ m ∨ kv = (k, v) := by
  intro kv hkv
  unfold dictInsert at hkv
  split at hkv
  · rcases List.mem_map.mp hkv with ⟨kv0, hkv0, heq⟩
    by_cases h : kv0.1 == k
    · rw [if_pos h] at heq; exact Or.inr heq.symm
    · rw [if_neg h] at heq; exact Or.inl (heq ▸ hkv0)
  · rcases List.mem_append.mp hkv with h | h
    · exact Or.inl h
    · simp at h; exact Or.inr h

theorem dictInsert_not_mem (m : List (String × ProjectOut)) (k : String) (v : ProjectOut)
    (h : k ∉ m.map (fun kv => kv.1)) : dictInsert m k v = m ++ [(k, v)] := by
  unfold dictInsert
  rw [if_neg]
  simp only [List.any_eq_true, beq_iff_eq, not_exists, not_and]
  intro kv hkv heq
  exact h (List.mem_map.mpr ⟨kv, hkv, heq⟩)

theorem gmLoop_mem (cfg : List (String × Project)) (fs : FS) :
    ∀ (ks : List String) (acc : List (String × ProjectOut)) (tot : Nat),
      ∀ kv ∈ (gmLoop cfg fs ks acc tot).1, kv ∈ acc ∨ ∃ p, kv.2 = buildProject fs p := by
  intro ks
  induction ks with
  | nil => intro acc tot kv hkv; exact Or.inl hkv
  | cons k ks ih =>
    intro acc tot kv hkv
    unfold gmLoop at hkv
    rcases hl : lookupProj cfg k with _ | p
    · rw [hl] at hkv; exact ih acc tot kv hkv
    · rw [hl] at hkv
      simp only at hkv
      by_cases hex : fs.pathExists p.basePath
      · rw [if_pos hex] at hkv
        rcases ih _ _ kv hkv with hacc | hbuild
        · rcases dictInsert_mem acc k (buildProject fs p) kv hacc with h | h
          · exact Or.inl h
          · exact Or.inr ⟨p, by rw [h]⟩
        · exact Or.inr hbuild
      · rw [if_neg hex] at hkv
        exact ih acc tot kv hkv

theorem gmLoop_sum (cfg : List (String × Project)) (fs : FS) :
    ∀ (ks : List String) (acc : List (String × ProjectOut)) (tot : Nat),
      ks.Nodup →
      (∀ k ∈ acc.map (fun kv => kv.1), k ∉ ks) →
      tot = (acc.map (fun kv => kv.2.totalAssets)).sum →
      (gmLoop cfg fs ks acc tot).2
        = ((gmLoop cfg fs ks acc tot).1.map (fun kv => kv.2.totalAssets)).sum := by
  intro ks
  induction ks with
  | nil => intro acc tot _ _ htot; exact htot
  | cons k ks ih =>
    intro acc tot hnd hdis htot
    rw [List.nodup_cons] at hnd
    unfold gmLoop
    rcases hl : lookupProj cfg k with _ | p
    · exact ih acc tot hnd.2 (fun k' hk' => fun hm => hdis k' hk' (List.mem_cons_of_mem _ hm)) htot
    · simp only
      by_cases hex : fs.pathExists p.basePath
      · rw [if_pos hex]
        have hknm : k ∉ acc.map (fun kv => kv.1) := by
          intro hk
          exact hdis k hk (List.mem_cons_self k ks)
        rw [dictInsert_not_mem acc k (buildProject fs p) hknm]
        apply ih
        · exact hnd.2
        · intro k' hk'
          rw [List.map_append, List.mem_append] at hk'
          rcases hk' with hk' | hk'
          · exact fun hm => hdis k' hk' (List.mem_cons_of_mem _ hm)
          · simp at hk'
            subst hk'
            exact hnd.1
        · rw [List.map_append, List.sum_append, htot]
          simp
      · rw [if_neg hex]
        exact ih acc tot hnd.2 (fun k' hk' => fun hm => hdis k' hk' (List.mem_cons_of_mem _ hm)) htot

theorem objGetD_not_has (kvs : List (String × JVal)) (k : String) (d : JVal)
    (h : hasKey kvs k = false) : objGetD kvs k d = d := by
  unfold objGetD
  rw [List.find?_eq_none.mpr]
  intro kv hkv
  unfold hasKey at h
  rw [List.any_eq_false] at h
  exact h kv hkv

theorem jarrToList_ofList : ∀ xs : List JVal, (JArr.ofList xs).toList = xs := by
  intro xs
  induction xs with
  | nil => rfl
  | cons x xs ih => simp [JArr.ofList, JArr.toList, ih]

theorem jobjToList_ofList : ∀ kvs : List (String × JVal), (JObj.ofList kvs).toList = kvs := by
  intro kvs
  induction kvs with
  | nil => rfl
  | cons kv kvs ih => obtain ⟨k, v⟩ := kv; simp [JObj.ofList, JObj.toList, ih]

theorem pyStrOf_num_ofNat (c : Nat) : pyStrOf (.num (Int.ofNat c)) = Nat.repr c := rfl

theorem yDialogueLoop_id_ge (docId ti : String) : ∀ (ds : List JVal) (cnt : Nat),
    (∀ d ∈ ds, ∀ o : JObj, d = .obj o → hasKey o.toList "id" = false) →
    ∀ s ∈ (yDialogueLoop docId ti cnt ds).map (fun it => it.id),
      ∃ c, cnt ≤ c ∧ s = "dialogue_" ++ docId ++ "_" ++ Nat.repr c := by
  intro ds
  induction ds with
  | nil => intro cnt _ s hs; simp [yDialogueLoop] at hs
  | cons d ds ih =>
    intro cnt hno s hs
    rcases d with s' | n | b | _ | xs | o
    all_goals simp only [yDialogueLoop] at hs
    case obj =>
      have hid : hasKey o.toList "id" = false := hno (.obj o) (by simp) o rfl
      rw [objGetD_not_has _ _ _ hid, pyStrOf_num_ofNat] at hs
      simp only [List.map_cons, List.mem_cons] at hs
      rcases hs with rfl | hs
      · exact ⟨cnt, le_refl cnt, rfl⟩
      · rcases ih (cnt + 1) (fun d hd => hno d (by simp [hd])) s hs with ⟨c, hc, hcs⟩
        exact ⟨c, le_trans (Nat.le_succ cnt) hc, hcs⟩
    all_goals exact ih cnt (fun d hd => hno d (by simp [hd])) s hs

theorem yDialogueLoop_count_ids_nodup (docId ti : String) : ∀ (ds : List JVal) (cnt : Nat),
    (∀ d ∈ ds, ∀ o : JObj, d = .obj o → hasKey o.toList "id" = false) →
    ((yDialogueLoop docId ti cnt ds).map (fun it => it.id)).Nodup := by
  intro ds
  induction ds with
  | nil => intro cnt _; simp [yDialogueLoop]
  | cons d ds ih =>
    intro cnt hno
    rcases d with s' | n | b | _ | xs | o
    all_goals simp only [yDialogueLoop]
    case obj =>
      have hid : hasKey o.toList "id" = false := hno (.obj o) (by simp) o rfl
      rw [objGetD_not_has _ _ _ hid, pyStrOf_num_ofNat]
      simp only [List.map_cons]
      rw [List.nodup_cons]
      constructor
      · intro hmem
        rcases yDialogueLoop_id_ge docId ti ds (cnt + 1)
          (fun d hd => hno d (by simp [hd])) _ hmem with ⟨c, hc, hcs⟩
        have h1 : docId ++ ("_" ++ Nat.repr cnt) = docId ++ ("_" ++ Nat.repr c) := by
          apply str_append_cancel "dialogue_"
          calc "dialogue_" ++ (docId ++ ("_" ++ Nat.repr cnt))
              = "dialogue_" ++ docId ++ "_" ++ Nat.repr cnt := by
                simp [String.ext_iff, String.data_append]
            _ = "dialogue_" ++ docId ++ "_" ++ Nat.repr c := hcs
            _ = "dialogue_" ++ (docId ++ ("_" ++ Nat.repr c)) := by
                simp [String.ext_iff, String.data_append]
        have h2 : "_" ++ Nat.repr cnt = "_" ++ Nat.repr c := str_append_cancel docId h1
        have h3 : Nat.repr cnt = Nat.repr c := str_append_cancel "_" h2
        have := natRepr_inj h3
        omega
      · exact ih (cnt + 1) (fun d hd => hno d (by simp [hd]))
    all_goals exact ih cnt (fun d hd => hno d (by simp [hd]))

/-! ## Claim C1 -/

/-- The spec's example chapter document. -/
def c1doc : JVal := jobj [("chapters", jarr [jobj [
  ("number", .num 1), ("title", .str "Intro"), ("intro_text", .str "Welcome"),
  ("encounters", jarr [jobj [
    ("id", .str "e1"), ("title", .str "Gate"), ("intro_text", .str "A gate."),
    ("hints", jarr [.str "look up", .str "push"])]])]])]

def c1file : FileRec :=
  { path := "/x/campaign.json", stem := "campaign", suffix := ".json",
    parsedJson := some c1doc, parsedYaml := none,
    size := 10, modified := "2024-01-01T00:00:00", hashv := "aaaaaaaa" }

/-- Claim C1: the example chapter document with a `.json` extension yields
exactly 4 items in this order: a `chapter_intro` with id `chapter_1_intro`,
an `encounter_intro` with id `encounter_e1_intro`, and two `hint` items with
ids `encounter_e1_hint_1` / `encounter_e1_hint_2` and hint levels 1 / 2. -/
theorem c1_chapter_example :
    (extract_narrative_items c1file).map (fun it => (it.type, it.id, it.hintLevel)) =
      [("chapter_intro", "chapter_1_intro", none),
       ("encounter_intro", "encounter_e1_intro", none),
       ("hint", "encounter_e1_hint_1", some 1),
       ("hint", "encounter_e1_hint_2", some 2)] := by decide

/-! ## Claim C9 -/

/-- Claim C9: extraction is deterministic and metadata independent — the item
list (identifiers included) is a function of the file's name-derived fields
and parsed content only; the stat metadata carried in a `FileRec` (size,
modification time, content hash) never influences the result. -/
theorem c9_deterministic_metadata_independent (f g : FileRec)
    (h1 : f.stem = g.stem) (h2 : f.suffix = g.suffix)
    (h3 : f.parsedJson = g.parsedJson) (h4 : f.parsedYaml = g.parsedYaml) :
    extract_narrative_items f = extract_narrative_items g := by
  obtain ⟨p, st, su, pj, py, sz, mo, ha⟩ := f
  obtain ⟨p', st', su', pj', py', sz', mo', ha'⟩ := g
  simp only at h1 h2 h3 h4
  subst h1; subst h2; subst h3; subst h4
  rfl

/-- Witness for C9: the same file content re-probed with a different
timestamp, size and hash (as after a `touch`) extracts identically. -/
theorem c9_witness :
    extract_narrative_items
      { path := "/y/campaign.json", stem := "campaign", suffix := ".json",
        parsedJson := some c1doc, parsedYaml := none,
        size := 999, modified := "2025-06-07T09:00:00", hashv := "bbbbbbbb" }
    = extract_narrative_items c1file :=
  c9_deterministic_metadata_independent _ _ rfl rfl rfl rfl

/-! ## Claim C5 -/

/-- A chapter document whose `encounters` value is not iterable: extraction
appends the chapter intro item and then raises `TypeError`. -/
def c5doc : JVal := jobj [("chapters", jarr [jobj [
  ("number", .num 1), ("title", .str "T"), ("intro_text", .str "Welcome"),
  ("encounters", .num 5)]])]

def c5file : FileRec :=
  { path := "/x/campaign.json", stem := "campaign", suffix := ".json",
    parsedJson := some c5doc, parsedYaml := none,
    size := 10, modified := "2024-01-01T00:00:00", hashv := "cccccccc" }

/-- Counterexample to claim C5: a document that raises during extraction does
NOT yield zero items — the items appended before the exception are returned
(here the chapter intro item survives the `TypeError` raised by iterating
`"encounters": 5`). -/
theorem c5_counterexample :
    (extract_narrative_items c5file).map (fun it => it.id) = ["chapter_1_intro"] := by decide

/-- Claim C5 (amended): an empty or unparseable document yields zero items;
a document that raises during extraction yields exactly the items accumulated
before the exception (possibly none); in every case the extractor returns
normally instead of propagating the exception. -/
theorem c5_total_boundary :
    (∀ f : FileRec, f.suffix = ".json" → f.parsedJson = none →
      extract_narrative_items f = [])
  ∧ (∀ f : FileRec, f.suffix = ".yaml" ∨ f.suffix = ".yml" → f.parsedYaml = none →
      extract_narrative_items f = [])
  ∧ (∀ f : FileRec, f.suffix = ".yaml" ∨ f.suffix = ".yml" → f.parsedYaml = some .null →
      extract_narrative_items f = [])
  ∧ (∀ (f : FileRec) (d : JVal), f.suffix = ".json" → f.parsedJson = some d →
      extract_narrative_items f = (jsonExtract d).1)
  ∧ (∀ (f : FileRec) (d : JVal), (f.suffix = ".yaml" ∨ f.suffix = ".yml") →
      f.parsedYaml = some d → d ≠ .null →
      extract_narrative_items f = (yamlExtract f.stem d).1) := by
  refine ⟨?_, ?_, ?_, ?_, ?_⟩
  · intro f h1 h2
    simp [extract_narrative_items, h1, h2]
  · intro f h1 h2
    rcases h1 with h1 | h1 <;> simp [extract_narrative_items, h1, h2]
  · intro f h1 h2
    rcases h1 with h1 | h1 <;> simp [extract_narrative_items, h1, h2]
  · intro f d h1 h2
    simp [extract_narrative_items, h1, h2]
  · intro f d h1 h2 h3
    rcases h1 with h1 | h1 <;>
      simp only [extract_narrative_items, h1, h2] <;>
      norm_num <;>
      rcases d with s | n | b | _ | xs | o <;> simp_all

def c5badfile : FileRec :=
  { path := "/x/broken.json", stem := "broken", suffix := ".json",
    parsedJson := none, parsedYaml := none,
    size := 3, modified := "2024-01-01T00:00:00", hashv := "dddddddd" }

/-- Witness for C5 (amended): a file whose JSON parse raises yields zero
items. -/
theorem c5_witness : extract_narrative_items c5badfile = [] :=
  c5_total_boundary.1 c5badfile rfl rfl

/-! ## Claim C2 -/

/-- Claim C2: dispatch is first-matching and mutually exclusive, in
precedence order chapters > flavor collection > themes > generic dialogue
for JSON and encounter-like > standalone-dialogue-like for YAML: whenever a
shape key is present, the first-listed matching rule is the one applied,
whatever later shape keys the document also carries.  In particular a JSON
document with both `chapters` and `dialogues` keys is extracted by the
chapters rule alone and produces no `dialogue`-typed item, and a YAML
document with both `title` and `speaker` keys is extracted by the encounter
rule, never the standalone-dialogue rule. -/
theorem c2_dispatch_precedence :
    (∀ (f : FileRec) (o : JObj), f.suffix = ".json" → f.parsedJson = some (.obj o) →
      hasKey o.toList "chapters" = true → hasKey o.toList "dialogues" = true →
      extract_narrative_items f = (chaptersRule (.obj o)).1
      ∧ ∀ it ∈ extract_narrative_items f, it.type ≠ "dialogue")
  ∧ (∀ (f : FileRec) (o : JObj), (f.suffix = ".yaml" ∨ f.suffix = ".yml") →
      f.parsedYaml = some (.obj o) →
      hasKey o.toList "title" = true → hasKey o.toList "speaker" = true →
      extract_narrative_items f = (encounterRuleY f.stem (.obj o)).1)
  ∧ (∀ (f : FileRec) (o : JObj), f.suffix = ".json" → f.parsedJson = some (.obj o) →
      hasKey o.toList "chapters" = true →
      extract_narrative_items f = (chaptersRule (.obj o)).1)
  ∧ (∀ (f : FileRec) (o : JObj), f.suffix = ".json" → f.parsedJson = some (.obj o) →
      hasKey o.toList "chapters" = false →
      (hasKey o.toList "weekly" || hasKey o.toList "monthly"
        || hasKey o.toList "victory") = true →
      extract_narrative_items f = (flavorRule (.obj o)).1)
  ∧ (∀ (f : FileRec) (o : JObj), f.suffix = ".json" → f.parsedJson = some (.obj o) →
      hasKey o.toList "chapters" = false → hasKey o.toList "weekly" = false →
      hasKey o.toList "monthly" = false → hasKey o.toList "victory" = false →
      (hasKey o.toList "themes" || hasKey o.toList "weeks") = true →
      extract_narrative_items f = (themesRule (.obj o)).1)
  ∧ (∀ (f : FileRec) (o : JObj), f.suffix = ".json" → f.parsedJson = some (.obj o) →
      hasKey o.toList "chapters" = false → hasKey o.toList "weekly" = false →
      hasKey o.toList "monthly" = false → hasKey o.toList "victory" = false →
      hasKey o.toList "themes" = false → hasKey o.toList "weeks" = false →
      (hasKey o.toList "dialogues" || hasKey o.toList "lines") = true →
      extract_narrative_items f = (dialogueRuleJ (.obj o)).1)
  ∧ (∀ (f : FileRec) (o : JObj), (f.suffix = ".yaml" ∨ f.suffix = ".yml") →
      f.parsedYaml = some (.obj o) →
      (hasKey o.toList "intro_text" || hasKey o.toList "title") = true →
      extract_narrative_items f = (encounterRuleY f.stem (.obj o)).1)
  ∧ (∀ (f : FileRec) (o : JObj), (f.suffix = ".yaml" ∨ f.suffix = ".yml") →
      f.parsedYaml = some (.obj o) →
      hasKey o.toList "intro_text" = false → hasKey o.toList "title" = false →
      (hasKey o.toList "npc" || hasKey o.toList "character"
        || hasKey o.toList "speaker") = true →
      extract_narrative_items f = (dialogueRuleY f.stem (.obj o)).1) := by
  refine ⟨?_, ?_, ?_, ?_, ?_, ?_, ?_, ?_⟩
  · intro f o h1 h2 hc _
    have hx : extract_narrative_items f = (chaptersRule (.obj o)).1 := by
      simp [extract_narrative_items, h1, h2, jsonExtract, pyContains, hc]
    refine ⟨hx, ?_⟩
    intro it hit
    rw [hx] at hit
    rcases chaptersRule_type (.obj o) it hit with h | h | h <;> simp [h]
  · intro f o h1 h2 ht _
    have hj : (f.suffix == ".json") = false := by
      rcases h1 with h | h <;> simp [h]
    have hy : (f.suffix == ".yaml" || f.suffix == ".yml") = true := by
      rcases h1 with h | h <;> simp [h]
    cases hik : hasKey o.toList "intro_text" <;>
      simp [extract_narrative_items, hj, hy, h2, yamlExtract, pyContainsAny, pyContains, hik, ht]
  · intro f o h1 h2 hc
    simp [extract_narrative_items, h1, h2, jsonExtract, pyContains, hc]
  · intro f o h1 h2 hc hflav
    cases hw : hasKey o.toList "weekly" with
    | true =>
      simp [extract_narrative_items, h1, h2, jsonExtract, pyContains, pyContainsAny, hc, hw]
    | false =>
      cases hm : hasKey o.toList "monthly" with
      | true =>
        simp [extract_narrative_items, h1, h2, jsonExtract, pyContains, pyContainsAny,
          hc, hw, hm]
      | false =>
        have hv : hasKey o.toList "victory" = true := by simpa [hw, hm] using hflav
        simp [extract_narrative_items, h1, h2, jsonExtract, pyContains, pyContainsAny,
          hc, hw, hm, hv]
  · intro f o h1 h2 hc hw hm hv hth
    cases hb : hasKey o.toList "themes" with
    | true =>
      simp [extract_narrative_items, h1, h2, jsonExtract, pyContains, pyContainsAny,
        hc, hw, hm, hv, hb]
    | false =>
      have hwk : hasKey o.toList "weeks" = true := by simpa [hb] using hth
      simp [extract_narrative_items, h1, h2, jsonExtract, pyContains, pyContainsAny,
        hc, hw, hm, hv, hb, hwk]
  · intro f o h1 h2 hc hw hm hv hth hwk hd
    cases hb : hasKey o.toList "dialogues" with
    | true =>
      simp [extract_narrative_items, h1, h2, jsonExtract, pyContains, pyContainsAny,
        hc, hw, hm, hv, hth, hwk, hb]
    | false =>
      have hl : hasKey o.toList "lines" = true := by simpa [hb] using hd
      simp [extract_narrative_items, h1, h2, jsonExtract, pyContains, pyContainsAny,
        hc, hw, hm, hv, hth, hwk, hb, hl]
  · intro f o h1 h2 hshape
    have hj : (f.suffix == ".json") = false := by
      rcases h1 with h | h <;> simp [h]
    have hy : (f.suffix == ".yaml" || f.suffix == ".yml") = true := by
      rcases h1 with h | h <;> simp [h]
    cases hik : hasKey o.toList "intro_text" with
    | true =>
      simp [extract_narrative_items, hj, hy, h2, yamlExtract, pyContainsAny, pyContains, hik]
    | false =>
      have hti : hasKey o.toList "title" = true := by simpa [hik] using hshape
      simp [extract_narrative_items, hj, hy, h2, yamlExtract, pyContainsAny, pyContains,
        hik, hti]
  · intro f o h1 h2 hik hti hsp
    have hj : (f.suffix == ".json") = false := by
      rcases h1 with h | h <;> simp [h]
    have hy : (f.suffix == ".yaml" || f.suffix == ".yml") = true := by
      rcases h1 with h | h <;> simp [h]
    cases hn : hasKey o.toList "npc" with
    | true =>
      simp [extract_narrative_items, hj, hy, h2, yamlExtract, pyContainsAny, pyContains,
        hik, hti, hn]
    | false =>
      cases hch : hasKey o.toList "character" with
      | true =>
        simp [extract_narrative_items, hj, hy, h2, yamlExtract, pyContainsAny, pyContains,
          hik, hti, hn, hch]
      | false =>
        have hsp2 : hasKey o.toList "speaker" = true := by simpa [hn, hch] using hsp
        simp [extract_narrative_items, hj, hy, h2, yamlExtract, pyContainsAny, pyContains,
          hik, hti, hn, hch, hsp2]

def c2doc : JVal := jobj [
  ("chapters", jarr [jobj [("number", .num 2), ("title", .str "Two"),
    ("intro_text", .str "Hello")]]),
  ("dialogues", jarr [jobj [("text", .str "ignored"), ("speaker", .str "Bob")]])]

def c2file : FileRec :=
  { path := "/x/mixed.json", stem := "mixed", suffix := ".json",
    parsedJson := some c2doc, parsedYaml := none,
    size := 9, modified := "2024-01-01T00:00:00", hashv := "eeeeeeee" }

def c2ydoc : JVal := jobj [("title", .str "T"), ("speaker", .str "Ann"),
  ("lines", jarr [.str "a line"])]

def c2yfile : FileRec :=
  { path := "/x/mixed.yaml", stem := "mixed", suffix := ".yaml",
    parsedJson := none, parsedYaml := some c2ydoc,
    size := 9, modified := "2024-01-01T00:00:00", hashv := "fafafafa" }

/-- Witness for C2: a concrete JSON document with both `chapters` and
`dialogues` keys is handled by the chapters rule only (one `chapter_intro`
item, nothing from `dialogues`), and a YAML document with both `title` and
`speaker` keys by the encounter rule. -/
theorem c2_witness :
    (extract_narrative_items c2file =
      (chaptersRule (jobj [
        ("chapters", jarr [jobj [("number", .num 2), ("title", .str "Two"),
          ("intro_text", .str "Hello")]]),
        ("dialogues", jarr [jobj [("text", .str "ignored"), ("speaker", .str "Bob")]])])).1
      ∧ (extract_narrative_items c2file).map (fun it => it.type) = ["chapter_intro"])
    ∧ extract_narrative_items c2yfile =
        (encounterRuleY "mixed" (jobj [("title", .str "T"), ("speaker", .str "Ann"),
          ("lines", jarr [.str "a line"])])).1 :=
  ⟨⟨(c2_dispatch_precedence.1 c2file _ rfl rfl (by decide) (by decide)).1, by decide⟩,
   c2_dispatch_precedence.2.1 c2yfile _ (Or.inl rfl) rfl (by decide) (by decide)⟩

/-! ## Claim C10 -/

/-- Claim C10: in the `themes`/`weeks` shape an entry that is neither a dict
nor a string produces no item, and week numbers come from each entry's
absolute `enumerate` index, so a skipped entry does not renumber later
entries. -/
theorem c10_themes_skip_keeps_numbering :
    (∀ (f : FileRec) (o : JObj) (ts : JArr),
      f.suffix = ".json" → f.parsedJson = some (.obj o) →
      hasKey o.toList "chapters" = false →
      hasKey o.toList "weekly" = false →
      hasKey o.toList "monthly" = false →
      hasKey o.toList "victory" = false →
      (hasKey o.toList "themes" || hasKey o.toList "weeks") = true →
      objGetD o.toList "themes" (objGetD o.toList "weeks" (jarr [])) = .arr ts →
      extract_narrative_items f = ts.toList.enum.filterMap (fun p => themeStep p.1 p.2))
  ∧ (∀ (i : Nat) (t : JVal), (∀ o : JObj, t ≠ .obj o) → (∀ s, t ≠ .str s) →
      themeStep i t = none) := by
  constructor
  · intro f o ts h1 h2 hch hw hm hv hth hval
    cases hb : hasKey o.toList "themes" with
    | false =>
      have hwk : hasKey o.toList "weeks" = true := by simpa [hb] using hth
      simp [extract_narrative_items, h1, h2, jsonExtract, pyContains, pyContainsAny,
        hch, hw, hm, hv, hb, hwk, themesRule, hval, pyIter]
    | true =>
      simp [extract_narrative_items, h1, h2, jsonExtract, pyContains, pyContainsAny,
        hch, hw, hm, hv, hb, themesRule, hval, pyIter]
  · intro i t h1 h2
    rcases t with s | n | b | _ | xs | o
    · exact absurd rfl (h2 s)
    · rfl
    · rfl
    · rfl
    · rfl
    · exact absurd rfl (h1 o)

def c10doc : JVal := jobj [("themes", jarr [.str "alpha", .num 7, .str "beta"])]

def c10file : FileRec :=
  { path := "/x/weekly_themes.json", stem := "weekly_themes", suffix := ".json",
    parsedJson := some c10doc, parsedYaml := none,
    size := 9, modified := "2024-01-01T00:00:00", hashv := "ffffffff" }

/-- Witness for C10: `["alpha", 7, "beta"]` yields items `week_1` and
`week_3` — the non-dict non-string entry `7` is skipped and does not
renumber `"beta"`. -/
theorem c10_witness :
    extract_narrative_items c10file =
      (JArr.ofList [.str "alpha", .num 7, .str "beta"]).toList.enum.filterMap
        (fun p => themeStep p.1 p.2)
    ∧ (extract_narrative_items c10file).map (fun it => it.id) = ["week_1", "week_3"] :=
  ⟨c10_themes_skip_keeps_numbering.1 c10file _ _ rfl rfl (by decide) (by decide) (by decide)
    (by decide) (by decide) rfl, by decide⟩

/-! ## Claim C3 -/

/-- A dialogue document whose single entry is a plain string. -/
def c3doc : JVal := jobj [("dialogues", jarr [.str "hi"])]

def c3file : FileRec :=
  { path := "/x/d.json", stem := "d", suffix := ".json",
    parsedJson := some c3doc, parsedYaml := none,
    size := 1, modified := "2024-01-01T00:00:00", hashv := "abababab" }

/-- Counterexample to claim C3: `{"dialogues": ["hi"]}` has one entry but
produces zero dialogue items — the rule silently skips entries that are not
dicts, so "one dialogue item per entry" fails. -/
theorem c3_counterexample :
    (extract_narrative_items c3file).length = 0
    ∧ (JArr.ofList [.str "hi"]).toList.length = 1 := by decide

/-- Claim C3 (amended): the JSON `dialogues`/`lines` rule produces one
`dialogue` item per dict entry of the sequence (non-dict entries are
skipped), with id `dialogue_<id-or-index>` — the entry's `id` field if
present, else its absolute index — and context the entry's `speaker` or
`character` field if present, else `"Unknown"`. -/
theorem c3_dialogue_rule :
    (∀ (f : FileRec) (o : JObj) (ds : JArr),
      f.suffix = ".json" → f.parsedJson = some (.obj o) →
      hasKey o.toList "chapters" = false →
      hasKey o.toList "weekly" = false →
      hasKey o.toList "monthly" = false →
      hasKey o.toList "victory" = false →
      hasKey o.toList "themes" = false →
      hasKey o.toList "weeks" = false →
      (hasKey o.toList "dialogues" || hasKey o.toList "lines") = true →
      objGetD o.toList "dialogues" (objGetD o.toList "lines" (jarr [])) = .arr ds →
      extract_narrative_items f = ds.toList.enum.filterMap (fun p => dialogueStepJ p.1 p.2))
  ∧ (∀ (i : Nat) (o : JObj), dialogueStepJ i (.obj o) = some
      { type := "dialogue",
        text := objGetD o.toList "text" (objGetD o.toList "line" (.str "")),
        context := objGetD o.toList "speaker" (objGetD o.toList "character" (.str "Unknown")),
        id := "dialogue_" ++ pyStrOf (objGetD o.toList "id" (.num (Int.ofNat i))),
        speaker := some (objGetD o.toList "speaker" (objGetD o.toList "character" (.str ""))) })
  ∧ (∀ (i : Nat) (t : JVal), (∀ o : JObj, t ≠ .obj o) → dialogueStepJ i t = none) := by
  refine ⟨?_, ?_, ?_⟩
  · intro f o ds h1 h2 hch hw hm hv hth hwk hd hval
    cases hb : hasKey o.toList "dialogues" with
    | false =>
      have hl : hasKey o.toList "lines" = true := by simpa [hb] using hd
      simp [extract_narrative_items, h1, h2, jsonExtract, pyContains, pyContainsAny,
        hch, hw, hm, hv, hth, hwk, hb, hl, dialogueRuleJ, hval, pyIter]
    | true =>
      simp [extract_narrative_items, h1, h2, jsonExtract, pyContains, pyContainsAny,
        hch, hw, hm, hv, hth, hwk, hb, dialogueRuleJ, hval, pyIter]
  · intro i o; rfl
  · intro i t h1
    rcases t with s | n | b | _ | xs | o
    · rfl
    · rfl
    · rfl
    · rfl
    · rfl
    · exact absurd rfl (h1 o)

def c3doc2 : JVal := jobj [("dialogues", jarr [
  jobj [("id", .str "a7"), ("text", .str "x")],
  jobj [("speaker", .str "Bob"), ("text", .str "y")]])]

def c3file2 : FileRec :=
  { path := "/x/d2.json", stem := "d2", suffix := ".json",
    parsedJson := some c3doc2, parsedYaml := none,
    size := 2, modified := "2024-01-01T00:00:00", hashv := "cdcdcdcd" }

/-- Witness for C3 (amended): an entry with an `id` field keeps it
(`dialogue_a7`), an entry without one gets its index (`dialogue_1`); the
contexts are `"Unknown"` and the speaker respectively. -/
theorem c3_witness :
    extract_narrative_items c3file2 =
      (JArr.ofList [jobj [("id", .str "a7"), ("text", .str "x")],
        jobj [("speaker", .str "Bob"), ("text", .str "y")]]).toList.enum.filterMap
          (fun p => dialogueStepJ p.1 p.2)
    ∧ (extract_narrative_items c3file2).map (fun it => (it.id, it.context)) =
        [("dialogue_a7", .str "Unknown"), ("dialogue_1", .str "Bob")] :=
  ⟨c3_dialogue_rule.1 c3file2 _ _ rfl rfl (by decide) (by decide) (by decide) (by decide)
    (by decide) (by decide) (by decide) rfl, by decide⟩

/-! ## Claim C4 -/

/-- A YAML encounter whose two dialogue entries both carry the id `x`. -/
def c4doc : JVal := jobj [("title", .str "T"),
  ("dialogue", jarr [jobj [("id", .str "x"), ("text", .str "a")],
                     jobj [("id", .str "x"), ("text", .str "b")]])]

def c4file : FileRec :=
  { path := "/x/scene.yaml", stem := "scene", suffix := ".yaml",
    parsedJson := none, parsedYaml := some c4doc,
    size := 1, modified := "2024-01-01T00:00:00", hashv := "efefefef" }

/-- Counterexample to claim C4: the running item count is only the fallback —
an entry with an explicit `id` field uses it verbatim, so two entries with the
same `id` collide within one document (`dialogue_scene_x` twice). -/
theorem c4_counterexample :
    ¬ ((extract_narrative_items c4file).map (fun it => it.id)).Nodup := by decide

theorem encounterRuleY_eq (stem : String) (o : JObj) (hs : List JVal) (ds : JArr)
    (hh : pyIter (objGetD o.toList "hints" (jarr [])) = some hs)
    (hd : objGetD o.toList "dialogue" (objGetD o.toList "dialogues" (jarr [])) = .arr ds) :
    (encounterRuleY stem (.obj o)).1 =
      (encounterPre stem o.toList ++ hintItemsY stem o.toList 1 hs)
      ++ yDialogueLoop (pyStrOf (objGetD o.toList "id" (.str stem)))
          (pyStrOf (objGetD o.toList "title" (.str stem)))
          (encounterPre stem o.toList ++ hintItemsY stem o.toList 1 hs).length ds.toList := by
  simp only [encounterRuleY]
  rw [hh, hd]
  simp [pyIter]

/-- Claim C4 (amended): each dict dialogue entry of a YAML encounter produces
one item whose id is `dialogue_<doc-id-or-stem>_<entry-id>` when the entry
has an `id` field, else `dialogue_<doc-id-or-stem>_<running-count>` with the
running item count of the document; ids obtained from the running count are
pairwise distinct, but explicit entry ids can collide. -/
theorem c4_dialogue_id_disambiguation :
    (∀ (f : FileRec) (o : JObj) (hs : List JVal) (ds : JArr),
      (f.suffix = ".yaml" ∨ f.suffix = ".yml") →
      f.parsedYaml = some (.obj o) →
      (hasKey o.toList "intro_text" || hasKey o.toList "title") = true →
      pyIter (objGetD o.toList "hints" (jarr [])) = some hs →
      objGetD o.toList "dialogue" (objGetD o.toList "dialogues" (jarr [])) = .arr ds →
      extract_narrative_items f =
        (encounterPre f.stem o.toList ++ hintItemsY f.stem o.toList 1 hs)
        ++ yDialogueLoop (pyStrOf (objGetD o.toList "id" (.str f.stem)))
          (pyStrOf (objGetD o.toList "title" (.str f.stem)))
          (encounterPre f.stem o.toList ++ hintItemsY f.stem o.toList 1 hs).length
          ds.toList)
  ∧ (∀ (docId ti : String) (cnt : Nat) (ds : List JVal),
      (∀ d ∈ ds, ∀ o : JObj, d = .obj o → hasKey o.toList "id" = false) →
      ((yDialogueLoop docId ti cnt ds).map (fun it => it.id)).Nodup)
  ∧ (∀ (docId ti : String) (cnt : Nat) (ds : List JVal) (o : JObj),
      yDialogueLoop docId ti cnt (.obj o :: ds) =
        { type := "dialogue",
          text := objGetD o.toList "text" (objGetD o.toList "line" (.str "")),
          context := .str (ti ++ " - " ++ pyStrOf (objGetD o.toList "speaker" (.str "Unknown"))),
          id := "dialogue_" ++ docId ++ "_"
            ++ pyStrOf (objGetD o.toList "id" (.num (Int.ofNat cnt))),
          speaker := some (objGetD o.toList "speaker" (objGetD o.toList "character" (.str ""))) }
        :: yDialogueLoop docId ti (cnt + 1) ds) := by
  refine ⟨?_, ?_, ?_⟩
  · intro f o hs ds h1 h2 hshape hhints hdial
    have hj : (f.suffix == ".json") = false := by
      rcases h1 with h | h <;> simp [h]
    have hy : (f.suffix == ".yaml" || f.suffix == ".yml") = true := by
      rcases h1 with h | h <;> simp [h]
    have hx : extract_narrative_items f = (encounterRuleY f.stem (.obj o)).1 := by
      cases hik : hasKey o.toList "intro_text" with
      | false =>
        have hti : hasKey o.toList "title" = true := by simpa [hik] using hshape
        simp [extract_narrative_items, hj, hy, h2, yamlExtract, pyContainsAny, pyContains,
          hik, hti]
      | true =>
        simp [extract_narrative_items, hj, hy, h2, yamlExtract, pyContainsAny, pyContains, hik]
    rw [hx, encounterRuleY_eq f.stem o hs ds hhints hdial]
  · exact fun docId ti cnt ds h => yDialogueLoop_count_ids_nodup docId ti ds cnt h
  · intro docId ti cnt ds o; rfl

def c4doc2 : JVal := jobj [("title", .str "T"),
  ("dialogue", jarr [jobj [("text", .str "a")], jobj [("text", .str "b")]])]

def c4file2 : FileRec :=
  { path := "/x/scene2.yaml", stem := "scene2", suffix := ".yaml",
    parsedJson := none, parsedYaml := some c4doc2,
    size := 1, modified := "2024-01-01T00:00:00", hashv := "01010101" }

/-- Witness for C4 (amended): two id-less dialogue entries receive the
running counts 0 and 1, and these count-based ids are distinct. -/
theorem c4_witness :
    extract_narrative_items c4file2 =
      (encounterPre "scene2" (JObj.ofList [("title", .str "T"),
        ("dialogue", jarr [jobj [("text", .str "a")], jobj [("text", .str "b")]])]).toList
        ++ hintItemsY "scene2" (JObj.ofList [("title", .str "T"),
          ("dialogue", jarr [jobj [("text", .str "a")], jobj [("text", .str "b")]])]).toList 1 [])
      ++ yDialogueLoop "scene2" "T" 0
          [jobj [("text", .str "a")], jobj [("text", .str "b")]]
    ∧ ((yDialogueLoop "scene2" "T" 0
        [jobj [("text", .str "a")], jobj [("text", .str "b")]]).map
          (fun it => it.id)).Nodup := by
  constructor
  · have h := c4_dialogue_id_disambiguation.1 c4file2
      (JObj.ofList [("title", .str "T"),
        ("dialogue", jarr [jobj [("text", .str "a")], jobj [("text", .str "b")]])])
      [] (JArr.ofList [jobj [("text", .str "a")], jobj [("text", .str "b")]])
      (Or.inl rfl) rfl (by decide) (by decide) (by decide)
    refine h.trans ?_
    decide
  · apply c4_dialogue_id_disambiguation.2.1 "scene2" "T" 0
    intro d hd o ho
    rcases List.mem_cons.mp hd with rfl | hd2
    · injection ho with h
      rw [← h]
      decide
    · rw [List.mem_singleton.mp hd2] at ho
      injection ho with h
      rw [← h]
      decide

/-! ## Claim C6 -/

/-- Claim C6: in every assembled manifest the root `totalAssets` equals the
sum of the emitted projects' `totalAssets`, and each project's `totalAssets`
equals the sum of its emitted categories' `count` fields, whatever projects
or categories were skipped.  The `Nodup` hypothesis reflects that the project
keys iterated over come from a Python dict (all keys) or a CLI choice of one
key, so no key is processed twice. -/
theorem c6_manifest_totals (cfg : List (String × Project)) (fs : FS)
    (arg : Option (List String))
    (hnd : (arg.getD (cfg.map (fun kv => kv.1))).Nodup) :
    (generate_manifest cfg fs arg).totalAssets
      = ((generate_manifest cfg fs arg).projects.map (fun kv => kv.2.totalAssets)).sum
    ∧ ∀ kv ∈ (generate_manifest cfg fs arg).projects,
        kv.2.totalAssets = (kv.2.categories.map (fun kc => kc.2.count)).sum := by
  constructor
  · unfold generate_manifest
    simp only
    exact gmLoop_sum cfg fs _ [] 0 hnd (by simp) (by simp)
  · intro kv hkv
    unfold generate_manifest at hkv
    simp only at hkv
    rcases gmLoop_mem cfg fs _ [] 0 kv hkv with h | ⟨p, hp⟩
    · simp at h
    · rw [hp]
      exact buildProject_total_eq_sum fs p

/-- An oracle filesystem on which nothing exists. -/
def emptyFS : FS :=
  { pathExists := fun _ => false, glob := fun _ _ => [],
    parseJson := fun _ => none, parseYaml := fun _ => none,
    size := fun _ => 0, modified := fun _ => "", hashv := fun _ => "",
    dimensions := fun _ => none, now := "" }

/-- Witness for C6: the real catalog scanned over an empty filesystem. -/
theorem c6_witness :
    (generate_manifest PROJECTS emptyFS none).totalAssets
      = ((generate_manifest PROJECTS emptyFS none).projects.map
          (fun kv => kv.2.totalAssets)).sum
    ∧ ∀ kv ∈ (generate_manifest PROJECTS emptyFS none).projects,
        kv.2.totalAssets = (kv.2.categories.map (fun kc => kc.2.count)).sum :=
  c6_manifest_totals PROJECTS emptyFS none (by decide)

/-! ## Claim C7 -/

/-- Claim C7: a category whose scan finds no file is omitted from the
project's category mapping, and project totals are exactly the sums of the
emitted categories' counts (so an omitted category contributes nothing);
every project record in a manifest arises this way. -/
theorem c7_empty_categories_omitted :
    (∀ (fs : FS) (p : Project) (ck : String) (c : Category),
      (ck, c) ∈ p.categories →
      scan_directory fs p.basePath c.path c.patterns = [] →
      (p.categories.map (fun kc => kc.1)).Nodup →
      ck ∉ (buildProject fs p).categories.map (fun kc => kc.1))
  ∧ (∀ (fs : FS) (p : Project),
      (buildProject fs p).totalAssets
        = ((buildProject fs p).categories.map (fun kc => kc.2.count)).sum)
  ∧ (∀ (cfg : List (String × Project)) (fs : FS) (arg : Option (List String)),
      ∀ kv ∈ (generate_manifest cfg fs arg).projects, ∃ q, kv.2 = buildProject fs q) := by
  refine ⟨?_, ?_, ?_⟩
  · intro fs p ck c hmem hscan hnd
    unfold buildProject
    exact catLoop_skips_empty fs p.basePath p.categories ck c hmem hscan hnd
  · exact buildProject_total_eq_sum
  · intro cfg fs arg kv hkv
    unfold generate_manifest at hkv
    simp only at hkv
    rcases gmLoop_mem cfg fs _ [] 0 kv hkv with h | h
    · simp at h
    · exact h

/-- A filesystem where every directory exists but every glob is empty. -/
def bareFS : FS :=
  { pathExists := fun _ => true, glob := fun _ _ => [],
    parseJson := fun _ => none, parseYaml := fun _ => none,
    size := fun _ => 0, modified := fun _ => "", hashv := fun _ => "",
    dimensions := fun _ => none, now := "" }

def c7cat : Category := { path := "sub", reviewType := "art", patterns := ["*.png"] }

def c7proj : Project := { name := "P", basePath := "/b", categories := [("lonely", c7cat)] }

/-- Witness for C7: a category whose directory exists but matches nothing is
absent from the assembled project. -/
theorem c7_witness :
    "lonely" ∉ (buildProject bareFS c7proj).categories.map (fun kc => kc.1) :=
  c7_empty_categories_omitted.1 bareFS c7proj "lonely" c7cat
    (List.mem_singleton.mpr rfl) rfl (by decide)

/-! ## Claim C8 -/

/-- Claim C8: scanning a missing directory returns the empty list (and, being
a total function, raises nothing); scanning an existing one returns the
sorted, duplicate-free union of the files matched by any pattern directly or
under `**/`. -/
theorem c8_scan_directory (fs : FS) (base sub : String) (pats : List String) :
    (fs.pathExists (joinPath base sub) = false → scan_directory fs base sub pats = [])
  ∧ (fs.pathExists (joinPath base sub) = true →
      (scan_directory fs base sub pats).Sorted pathLe
      ∧ (scan_directory fs base sub pats).Nodup
      ∧ ∀ x, x ∈ scan_directory fs base sub pats ↔
          ∃ p ∈ pats, x ∈ fs.glob (joinPath base sub) p
            ∨ x ∈ fs.glob (joinPath base sub) ("**/" ++ p)) := by
  constructor
  · intro h; simp [scan_directory, h]
  · intro h
    have hperm := List.perm_insertionSort pathLe
      ((pats.foldl (fun acc pat => acc ++ fs.glob (joinPath base sub) pat
        ++ fs.glob (joinPath base sub) ("**/" ++ pat)) []).dedup)
    refine ⟨?_, ?_, ?_⟩
    · simp only [scan_directory, h, if_true]
      exact List.sorted_insertionSort pathLe _
    · simp only [scan_directory, h, if_true]
      exact hperm.symm.nodup (List.nodup_dedup _)
    · intro x
      simp only [scan_directory, h, if_true]
      rw [hperm.mem_iff, List.mem_dedup]
      have hm := mem_scanFold (fun pat => fs.glob (joinPath base sub) pat)
        (fun pat => fs.glob (joinPath base sub) ("**/" ++ pat)) pats [] x
      simpa using hm

/-- A filesystem with one directory of three matches (one duplicated). -/
def c8fs : FS :=
  { pathExists := fun _ => true,
    glob := fun _ pat => if pat = "*.png" then ["r/s/z.png", "r/s/a.png", "r/s/z.png"] else [],
    parseJson := fun _ => none, parseYaml := fun _ => none,
    size := fun _ => 0, modified := fun _ => "", hashv := fun _ => "",
    dimensions := fun _ => none, now := "" }

/-- Witness for C8: a missing directory scans to `[]`; an existing one scans
to a sorted, duplicate-free union of the glob results. -/
theorem c8_witness :
    scan_directory emptyFS "a" "b" ["*.png"] = []
    ∧ ((scan_directory c8fs "r" "s" ["*.png"]).Sorted pathLe
      ∧ (scan_directory c8fs "r" "s" ["*.png"]).Nodup
      ∧ ∀ x, x ∈ scan_directory c8fs "r" "s" ["*.png"] ↔
          ∃ p ∈ ["*.png"], x ∈ c8fs.glob (joinPath "r" "s") p
            ∨ x ∈ c8fs.glob (joinPath "r" "s") ("**/" ++ p)) :=
  ⟨(c8_scan_directory emptyFS "a" "b" ["*.png"]).1 rfl,
   (c8_scan_directory c8fs "r" "s" ["*.png"]).2 rfl⟩
